import Mathlib

/-!
Verification of the configuration-resolution core of `janus_core.cli`
(file `src/janus_core/cli.py`): the option parser (`parse_dict_class`),
the keyword-dictionary normalizer (`parse_typer_dicts`), and the two
commands `singlepoint` and `geomopt`.

The Python code is shallowly embedded: Python literal values become the
inductive `PyVal`; Python dicts with string keys become ordered
association lists (`List (String × PyVal)`), with `d[k] = v` assignment
modelled by `dictSet` (update in place, else append, as CPython does);
exceptions become an error outcome; the externally visible effects of a
command (building the single-point session, which loads the structure
and opens the log, and invoking the optimizer) become an event list plus
a final call record.  `ast.literal_eval` is Python standard-library code
external to this repository: the embedding of `parse_dict_class` takes
the already-decoded literal as its input.
-/

/-- Python literal values, as produced by a safe literal evaluator.
Mapping keys are restricted to strings, which is the shape every option
of this program uses. -/
inductive PyVal where
  | none
  | bool (b : Bool)
  | int (n : Int)
  | str (s : String)
  | list (xs : List PyVal)
  | tuple (xs : List PyVal)
  | dict (entries : List (String × PyVal))

/-- Embeds `isinstance(v, dict)`. -/
def isDict : PyVal → Bool
  | PyVal.dict _ => true
  | _ => false

/-- Entries of a mapping value; `[]` on a non-mapping (only ever applied
to values proved to be mappings). -/
def pyDictEntries : PyVal → List (String × PyVal)
  | PyVal.dict entries => entries
  | _ => []

/-- Embeds the Python dict assignment `d[k] = v`: overwrite the entry in
place when the key is present, append it otherwise. -/
def dictSet : List (String × PyVal) → String → PyVal → List (String × PyVal)
  | [], k, v => [(k, v)]
  | (k', v') :: rest, k, v =>
      if k' = k then (k, v) :: rest else (k', v') :: dictSet rest k v

/-- Embeds the class `TyperDict` of `cli.py`: a wrapper holding one
decoded literal in its `value` attribute. -/
structure TyperDict where
  value : PyVal

/-- Embeds `parse_dict_class` of `cli.py`, which returns
`TyperDict(ast.literal_eval(value))`.  `ast.literal_eval` is external
standard-library code, so the embedding takes its decoded output as the
input; the literal string "\x7b\x7d" decodes to the empty mapping
`PyVal.dict []`.  No check of any kind is performed on the decoded
value. -/
def parse_dict_class (decoded : PyVal) : TyperDict :=
  ⟨decoded⟩

/-- Embeds the per-element substitution
`typer_dict.value if typer_dict else {}` of `parse_typer_dicts`: a
`TyperDict` instance defines neither `__bool__` nor `__len__`, hence is
always truthy, and the only other value the call sites pass is `None`,
which is falsy; so the expression is exactly a match on the option. -/
def normSlot : Option TyperDict → PyVal
  | some t => t.value
  | none => PyVal.dict []

/-- Functional view of `parse_typer_dicts` of `cli.py`: normalize each
element left to right, failing with `ValueError` at the first element
whose substituted value is not a dict; the error payload is the
offending value (the message is formatted from it). -/
def parse_typer_dicts : List (Option TyperDict) → Except PyVal (List PyVal)
  | [] => Except.ok []
  | td :: rest =>
      let v := normSlot td
      if isDict v then
        match parse_typer_dicts rest with
        | Except.ok out => Except.ok (v :: out)
        | Except.error e => Except.error e
      else
        Except.error v

/-- A slot of the caller list while `parse_typer_dicts` runs: the loop
body executes `typer_dicts[i] = typer_dict.value if typer_dict else {}`,
so a slot is either still the original optional `TyperDict` or already
holds the assigned normalized value. -/
inductive Slot where
  | raw (td : Option TyperDict)
  | assigned (v : PyVal)

/-- State-passing model of the in-place mutation done by `parse_typer_dicts`: the
first component is the final contents of the list held by the caller (Python
mutates the argument and `return typer_dicts` hands that very list
back), the second is the outcome.  On the error raised at index `i`,
slots `0..i` have been assigned and the rest are untouched. -/
def parse_typer_dicts_mut : List (Option TyperDict) → List Slot × Except PyVal Unit
  | [] => ([], Except.ok ())
  | td :: rest =>
      let v := normSlot td
      if isDict v then
        let r := parse_typer_dicts_mut rest
        (Slot.assigned v :: r.1, r.2)
      else
        (Slot.assigned v :: rest.map Slot.raw, Except.error v)

/-- An externally visible effect of a command before the optimizer is
invoked.  `sessionBuild` is the construction of the `SinglePoint`
session, which loads the structure from `struct_path` and opens the log
file with the given mode (the `log_kwargs` dict of the source is
`filename`/`filemode`). -/
inductive Event where
  | sessionBuild (struct_path : String) (architecture : String) (device : String)
      (read_kwargs : List (String × PyVal)) (calc_kwargs : List (String × PyVal))
      (log_filename : String) (log_filemode : String)

/-- The `ValueError`s the CLI layer can raise.  `notADict` carries the
offending value whose textual form appears in the message
"... must be passed as a dictionary"; `unpackMismatch` is the
`ValueError` Python raises when the list-unpacking assignment receives a
list of the wrong length. -/
inductive PyError where
  | notADict (v : PyVal)
  | vectorsOnlyRequiresFullyOpt
  | trajectoryInOptKwargs
  | unpackMismatch

/-- The argument record of the final `optimize(...)` invocation of
`geomopt`.  `fmax` and `steps` are forwarded untouched, so their numeric
type is irrelevant to the embedding. -/
structure OptimizeCall where
  struct_path : String
  fmax : Int
  steps : Int
  filter_kwargs : Option (List (String × PyVal))
  fully_opt_dict : List (String × PyVal)
  opt_kwargs : List (String × PyVal)
  write_results : Bool
  write_kwargs : List (String × PyVal)
  traj_kwargs : Option (List (String × PyVal))
  log_kwargs : List (String × PyVal)

/-- Arguments of the `geomopt` command.  Dictionary options arrive as
optional `TyperDict` wrappers (absent flag = `none`), exactly as typer
hands them to the function; `traj_file` is an optional string. -/
structure GeomoptArgs where
  struct_path : String
  fmax : Int
  steps : Int
  architecture : String
  device : String
  fully_opt : Bool
  vectors_only : Bool
  read_kwargs : Option TyperDict
  calc_kwargs : Option TyperDict
  opt_kwargs : Option TyperDict
  write_kwargs : Option TyperDict
  traj_file : Option String
  log_file : String

/-- How a `geomopt` invocation ends: an uncaught `ValueError`, or the
`optimize` call with its assembled arguments. -/
inductive GeomoptOutcome where
  | error (e : PyError)
  | ran (call : OptimizeCall)

/-- Result of running `geomopt`: the effects that happened before
termination, the outcome, and the final contents of the caller-supplied
optimizer-options mapping (`none` when the caller supplied no mapping,
or a wrapper around a non-mapping). -/
structure GeomoptResult where
  events : List Event
  outcome : GeomoptOutcome
  opt_kwargs_final : Option (List (String × PyVal))

/-- Embeds `opt_kwargs["trajectory"] = traj_file if traj_file else None`
of `cli.py`: Python truthiness makes both `None` and the empty string
select the `None` sentinel. -/
def trajPy : Option String → PyVal
  | some s => if s = "" then PyVal.none else PyVal.str s
  | none => PyVal.none

/-- Embeds `traj_kwargs = {"filename": traj_file} if traj_file else None`
of `cli.py`, with the same truthiness test. -/
def trajKw : Option String → Option (List (String × PyVal))
  | some s => if s = "" then none else some [("filename", PyVal.str s)]
  | none => none

/-- The contents of the mapping held by the `opt_kwargs` wrapper of the caller,
when there is one: this is the caller-visible dict object that line
`opt_kwargs["trajectory"] = ...` mutates. -/
def origOpt (a : GeomoptArgs) : Option (List (String × PyVal)) :=
  match a.opt_kwargs with
  | some ⟨PyVal.dict d⟩ => some d
  | _ => none

/-- Embeds the body of the `geomopt` command of `cli.py`, lines 270-312:
normalize the four kwargs dicts, reject `vectors_only` without
`fully_opt`, build the single-point session (structure load + log opened
in mode "w"), reject a reserved `trajectory` key in the optimizer
options, inject the trajectory entry, derive trajectory-write and
cell-filter configuration, and invoke `optimize` with the log reopened
in mode "a". -/
def geomopt (a : GeomoptArgs) : GeomoptResult :=
  match parse_typer_dicts [a.read_kwargs, a.calc_kwargs, a.opt_kwargs, a.write_kwargs] with
  | Except.error v => ⟨[], GeomoptOutcome.error (PyError.notADict v), origOpt a⟩
  | Except.ok [read_kwargs, calc_kwargs, opt_kwargs, write_kwargs] =>
      if !a.fully_opt && a.vectors_only then
        ⟨[], GeomoptOutcome.error PyError.vectorsOnlyRequiresFullyOpt, origOpt a⟩
      else
        let events := [Event.sessionBuild a.struct_path a.architecture a.device
          (pyDictEntries read_kwargs) (pyDictEntries calc_kwargs) a.log_file "w"]
        if ((pyDictEntries opt_kwargs).lookup "trajectory").isSome then
          ⟨events, GeomoptOutcome.error PyError.trajectoryInOptKwargs, origOpt a⟩
        else
          let optKw := dictSet (pyDictEntries opt_kwargs) "trajectory" (trajPy a.traj_file)
          ⟨events,
           GeomoptOutcome.ran
             { struct_path := a.struct_path
               fmax := a.fmax
               steps := a.steps
               filter_kwargs :=
                 if a.fully_opt then
                   some [("hydrostatic_strain", PyVal.bool a.vectors_only)]
                 else none
               fully_opt_dict := if a.fully_opt then [] else [("filter_func", PyVal.none)]
               opt_kwargs := optKw
               write_results := true
               write_kwargs := pyDictEntries write_kwargs
               traj_kwargs := trajKw a.traj_file
               log_kwargs := [("filename", PyVal.str a.log_file), ("filemode", PyVal.str "a")] },
           (origOpt a).map (fun d => dictSet d "trajectory" (trajPy a.traj_file))⟩
  | Except.ok _ => ⟨[], GeomoptOutcome.error PyError.unpackMismatch, origOpt a⟩

/-- Arguments of the `singlepoint` command. -/
structure SinglepointArgs where
  struct_path : String
  architecture : String
  device : String
  properties : Option (List String)
  read_kwargs : Option TyperDict
  calc_kwargs : Option TyperDict
  write_kwargs : Option TyperDict
  log_file : String

/-- The argument record of the final `s_point.run(...)` invocation of
`singlepoint`. -/
structure SPRunCall where
  properties : Option (List String)
  write_results : Bool
  write_kwargs : List (String × PyVal)

/-- How a `singlepoint` invocation ends. -/
inductive SinglepointOutcome where
  | error (e : PyError)
  | ran (call : SPRunCall)

/-- Result of running `singlepoint`. -/
structure SinglepointResult where
  events : List Event
  outcome : SinglepointOutcome

/-- Embeds the body of the `singlepoint` command of `cli.py`, lines
176-188: normalize the three kwargs dicts, build the single-point
session (log opened in mode "w"), run the evaluation. -/
def singlepoint (a : SinglepointArgs) : SinglepointResult :=
  match parse_typer_dicts [a.read_kwargs, a.calc_kwargs, a.write_kwargs] with
  | Except.error v => ⟨[], SinglepointOutcome.error (PyError.notADict v)⟩
  | Except.ok [read_kwargs, calc_kwargs, write_kwargs] =>
      ⟨[Event.sessionBuild a.struct_path a.architecture a.device
          (pyDictEntries read_kwargs) (pyDictEntries calc_kwargs) a.log_file "w"],
       SinglepointOutcome.ran
         { properties := a.properties
           write_results := true
           write_kwargs := pyDictEntries write_kwargs }⟩
  | Except.ok _ => ⟨[], SinglepointOutcome.error PyError.unpackMismatch⟩

/-- Whether an outcome is an uncaught error (a `ValueError`; the
specification taxonomy calls every such configuration failure a
`ConfigurationError`). -/
def isErr : GeomoptOutcome → Bool
  | GeomoptOutcome.error _ => true
  | GeomoptOutcome.ran _ => false

/-- The session-construction event a `geomopt` run emits, as a function
of the arguments. -/
def geomoptSessionEvent (a : GeomoptArgs) : Event :=
  Event.sessionBuild a.struct_path a.architecture a.device
    (pyDictEntries (normSlot a.read_kwargs)) (pyDictEntries (normSlot a.calc_kwargs))
    a.log_file "w"

/-- The `optimize` call a successful `geomopt` run makes, as a function
of the arguments; `geomopt_ran_inv` proves this characterization. -/
def geomoptCall (a : GeomoptArgs) : OptimizeCall :=
  { struct_path := a.struct_path
    fmax := a.fmax
    steps := a.steps
    filter_kwargs :=
      if a.fully_opt then some [("hydrostatic_strain", PyVal.bool a.vectors_only)] else none
    fully_opt_dict := if a.fully_opt then [] else [("filter_func", PyVal.none)]
    opt_kwargs := dictSet (pyDictEntries (normSlot a.opt_kwargs)) "trajectory" (trajPy a.traj_file)
    write_results := true
    write_kwargs := pyDictEntries (normSlot a.write_kwargs)
    traj_kwargs := trajKw a.traj_file
    log_kwargs := [("filename", PyVal.str a.log_file), ("filemode", PyVal.str "a")] }

theorem parse_typer_dicts_ok_iff (l : List (Option TyperDict)) (out : List PyVal) :
    parse_typer_dicts l = Except.ok out ↔
      out = l.map normSlot ∧ ∀ td ∈ l, isDict (normSlot td) = true := by
  induction l generalizing out with
  | nil =>
      simp only [parse_typer_dicts, List.map_nil]
      constructor
      · intro h
        cases h
        exact ⟨rfl, fun td h => absurd h (List.not_mem_nil td)⟩
      · rintro ⟨rfl, _⟩
        rfl
  | cons td rest ih =>
      simp only [parse_typer_dicts]
      by_cases hd : isDict (normSlot td)
      · simp only [hd, if_pos]
        constructor
        · intro h
          cases hrec : parse_typer_dicts rest with
          | ok out' =>
              rw [hrec] at h
              cases h
              obtain ⟨h1, h2⟩ := (ih out').mp hrec
              refine ⟨by simp [h1], ?_⟩
              intro x hx
              rcases List.mem_cons.mp hx with h | h
              · exact h ▸ hd
              · exact h2 x h
          | error e =>
              rw [hrec] at h
              cases h
        · rintro ⟨h1, h2⟩
          have hrec : parse_typer_dicts rest = Except.ok (rest.map normSlot) :=
            (ih (rest.map normSlot)).mpr ⟨rfl, fun x hx => h2 x (List.mem_cons_of_mem _ hx)⟩
          rw [hrec, h1]
          simp
      · simp only [hd, if_neg, Bool.false_eq_true, not_false_iff]
        constructor
        · intro h
          cases h
        · rintro ⟨h1, h2⟩
          exact absurd (h2 td (List.mem_cons_self td rest)) (by simp [hd])

theorem parse_typer_dicts_error (l : List (Option TyperDict)) (v : PyVal)
    (h : parse_typer_dicts l = Except.error v) :
    isDict v = false ∧ ∃ t : TyperDict, some t ∈ l ∧ t.value = v := by
  induction l with
  | nil =>
      simp [parse_typer_dicts] at h
  | cons td rest ih =>
      simp only [parse_typer_dicts] at h
      by_cases hd : isDict (normSlot td)
      · simp only [hd, if_pos] at h
        cases hrec : parse_typer_dicts rest with
        | ok out' => rw [hrec] at h; cases h
        | error e =>
            rw [hrec] at h
            cases h
            obtain ⟨h1, t, ht, hv⟩ := ih hrec
            exact ⟨h1, t, List.mem_cons_of_mem _ ht, hv⟩
      · simp only [hd, if_neg, Bool.false_eq_true, not_false_iff] at h
        cases h
        refine ⟨by simpa using hd, ?_⟩
        cases td with
        | none =>
            exact absurd hd (by simp [normSlot, isDict])
        | some t =>
            exact ⟨t, List.mem_cons_self _ _, rfl⟩

theorem parse4_ok (r k o w : Option TyperDict)
    (h1 : isDict (normSlot r) = true) (h2 : isDict (normSlot k) = true)
    (h3 : isDict (normSlot o) = true) (h4 : isDict (normSlot w) = true) :
    parse_typer_dicts [r, k, o, w] =
      Except.ok [normSlot r, normSlot k, normSlot o, normSlot w] := by
  simp [parse_typer_dicts, h1, h2, h3, h4]

theorem dictSet_lookup_self (d : List (String × PyVal)) (k : String) (v : PyVal) :
    (dictSet d k v).lookup k = some v := by
  induction d with
  | nil => simp [dictSet, List.lookup]
  | cons p rest ih =>
      obtain ⟨k', v'⟩ := p
      by_cases hk : k' = k
      · subst hk
        simp [dictSet, List.lookup]
      · have hb : (k == k') = false := beq_eq_false_iff_ne.mpr (Ne.symm hk)
        simp [dictSet, hk, List.lookup, hb, ih]

theorem geomopt_ran_inv (a : GeomoptArgs) (c : OptimizeCall)
    (h : (geomopt a).outcome = GeomoptOutcome.ran c) :
    (!a.fully_opt && a.vectors_only) = false ∧
    (pyDictEntries (normSlot a.opt_kwargs)).lookup "trajectory" = none ∧
    geomopt a = ⟨[geomoptSessionEvent a], GeomoptOutcome.ran (geomoptCall a),
      (origOpt a).map (fun d => dictSet d "trajectory" (trajPy a.traj_file))⟩ ∧
    c = geomoptCall a := by
  cases hp : parse_typer_dicts [a.read_kwargs, a.calc_kwargs, a.opt_kwargs, a.write_kwargs] with
  | error v => simp [geomopt, hp] at h
  | ok out =>
      obtain ⟨rfl, hall⟩ := (parse_typer_dicts_ok_iff _ _).mp hp
      by_cases hv : (!a.fully_opt && a.vectors_only) = true
      · simp [geomopt, hp, hv] at h
      · have hv' : (!a.fully_opt && a.vectors_only) = false := by
          simpa using hv
        by_cases ht : ((pyDictEntries (normSlot a.opt_kwargs)).lookup "trajectory").isSome = true
        · simp [geomopt, hp, hv', ht] at h
        · have ht' : (pyDictEntries (normSlot a.opt_kwargs)).lookup "trajectory" = none :=
            Option.not_isSome_iff_eq_none.mp (by simpa using ht)
          have hc : c = geomoptCall a := by
            simp [geomopt, hp, hv', ht'] at h
            simp [geomoptCall, ← h]
          refine ⟨hv', ht', ?_, hc⟩
          simp [geomopt, hp, hv', ht', geomoptSessionEvent, geomoptCall]

theorem parse3_ok (r k w : Option TyperDict)
    (h1 : isDict (normSlot r) = true) (h2 : isDict (normSlot k) = true)
    (h3 : isDict (normSlot w) = true) :
    parse_typer_dicts [r, k, w] = Except.ok [normSlot r, normSlot k, normSlot w] := by
  simp [parse_typer_dicts, h1, h2, h3]

theorem singlepoint_ran_inv (a : SinglepointArgs) (c : SPRunCall)
    (h : (singlepoint a).outcome = SinglepointOutcome.ran c) :
    (singlepoint a).events = [Event.sessionBuild a.struct_path a.architecture a.device
        (pyDictEntries (normSlot a.read_kwargs)) (pyDictEntries (normSlot a.calc_kwargs))
        a.log_file "w"] ∧
    c = ⟨a.properties, true, pyDictEntries (normSlot a.write_kwargs)⟩ := by
  cases hp : parse_typer_dicts [a.read_kwargs, a.calc_kwargs, a.write_kwargs] with
  | error v => simp [singlepoint, hp] at h
  | ok out =>
      obtain ⟨rfl, hall⟩ := (parse_typer_dicts_ok_iff _ _).mp hp
      constructor
      · simp [singlepoint, hp]
      · simp [singlepoint, hp] at h
        exact h.symm

/-- C1, counterexample: with `opt_kwargs` containing a `trajectory` key
and no `--traj` value, `geomopt` does raise the error, but only after
the single-point session has been built — the event trace contains the
session construction (which loads the structure), so the error is not
raised before a structure load is attempted. -/
theorem geomopt_traj_key_after_load_cex :
    (geomopt ⟨"s.xyz", 1, 1000, "mace_mp", "cpu", false, false, none, none,
        some ⟨PyVal.dict [("trajectory", PyVal.str "x")]⟩, none, none, "geomopt.log"⟩).outcome
      = GeomoptOutcome.error PyError.trajectoryInOptKwargs ∧
    (geomopt ⟨"s.xyz", 1, 1000, "mace_mp", "cpu", false, false, none, none,
        some ⟨PyVal.dict [("trajectory", PyVal.str "x")]⟩, none, none, "geomopt.log"⟩).events
      = [Event.sessionBuild "s.xyz" "mace_mp" "cpu" [] [] "geomopt.log" "w"] :=
  ⟨rfl, rfl⟩

/-- C1, amended: whenever the parsed optimizer-options mapping contains
a `trajectory` key (all kwargs normalize), `geomopt` raises an error for
any value of the `--traj` option, before the optimizer-options mapping
is mutated or the optimizer invoked; the error precedes the single-point
session build exactly when the vectors-only validation also fails
(`vectors_only` without `fully_opt`) — in every other case the session
is built first (exactly one session construction, hence a structure
load, in the trace) and the trajectory-key error follows it. -/
theorem geomopt_traj_key_rejected_after_session (a : GeomoptArgs)
    (h1 : isDict (normSlot a.read_kwargs) = true) (h2 : isDict (normSlot a.calc_kwargs) = true)
    (h3 : isDict (normSlot a.opt_kwargs) = true) (h4 : isDict (normSlot a.write_kwargs) = true)
    (ht : ((pyDictEntries (normSlot a.opt_kwargs)).lookup "trajectory").isSome = true) :
    geomopt a =
      (if (!a.fully_opt && a.vectors_only) = true then
        ⟨[], GeomoptOutcome.error PyError.vectorsOnlyRequiresFullyOpt, origOpt a⟩
      else
        ⟨[geomoptSessionEvent a], GeomoptOutcome.error PyError.trajectoryInOptKwargs,
          origOpt a⟩) := by
  have hp := parse4_ok _ _ _ _ h1 h2 h3 h4
  by_cases hv : (!a.fully_opt && a.vectors_only) = true
  · simp [geomopt, hp, hv]
  · have hv' : (!a.fully_opt && a.vectors_only) = false := by simpa using hv
    simp [geomopt, hp, hv', ht, geomoptSessionEvent]

theorem geomopt_traj_key_rejected_after_session_witness :
    geomopt ⟨"s.xyz", 1, 1000, "mace_mp", "cpu", false, false, none, none,
        some ⟨PyVal.dict [("trajectory", PyVal.str "x")]⟩, none, some "t.xyz", "geomopt.log"⟩ =
      ⟨[Event.sessionBuild "s.xyz" "mace_mp" "cpu" [] [] "geomopt.log" "w"],
       GeomoptOutcome.error PyError.trajectoryInOptKwargs,
       some [("trajectory", PyVal.str "x")]⟩ ∧
    geomopt ⟨"s.xyz", 1, 1000, "mace_mp", "cpu", false, true, none, none,
        some ⟨PyVal.dict [("trajectory", PyVal.str "x")]⟩, none, some "t.xyz", "geomopt.log"⟩ =
      ⟨[], GeomoptOutcome.error PyError.vectorsOnlyRequiresFullyOpt,
       some [("trajectory", PyVal.str "x")]⟩ :=
  ⟨geomopt_traj_key_rejected_after_session _ rfl rfl rfl rfl rfl,
   geomopt_traj_key_rejected_after_session _ rfl rfl rfl rfl rfl⟩

/-- C2: with `vectors_only` set and `fully_opt` unset, `geomopt` raises
a `ValueError` whatever the other options are, and its event trace is
empty — in particular the single-point session is never built. -/
theorem geomopt_vectors_only_without_fully_opt_rejected (a : GeomoptArgs)
    (hv : a.vectors_only = true) (hf : a.fully_opt = false) :
    (geomopt a).events = [] ∧ isErr (geomopt a).outcome = true := by
  cases hp : parse_typer_dicts [a.read_kwargs, a.calc_kwargs, a.opt_kwargs, a.write_kwargs] with
  | error v => simp [geomopt, hp, isErr]
  | ok out =>
      obtain ⟨rfl, hall⟩ := (parse_typer_dicts_ok_iff _ _).mp hp
      simp [geomopt, hp, hv, hf, isErr]

theorem geomopt_vectors_only_without_fully_opt_rejected_witness :
    (geomopt ⟨"s.xyz", 1, 1000, "mace_mp", "cpu", false, true, none, none, none, none,
        none, "geomopt.log"⟩).events = [] ∧
    isErr (geomopt ⟨"s.xyz", 1, 1000, "mace_mp", "cpu", false, true, none, none, none, none,
        none, "geomopt.log"⟩).outcome = true :=
  geomopt_vectors_only_without_fully_opt_rejected _ rfl rfl

/-- C3: on every successful `geomopt` run, the cell-deformation filter
configuration is `None` with the filter function explicitly overridden
to `None` when `fully_opt` is unset, regardless of `vectors_only`; and
when `fully_opt` is set it is a mapping whose `hydrostatic_strain` flag
equals the `vectors_only` option. -/
theorem geomopt_filter_configuration (a : GeomoptArgs) (c : OptimizeCall)
    (h : (geomopt a).outcome = GeomoptOutcome.ran c) :
    c.filter_kwargs =
      (if a.fully_opt then some [("hydrostatic_strain", PyVal.bool a.vectors_only)] else none) ∧
    c.fully_opt_dict = (if a.fully_opt then [] else [("filter_func", PyVal.none)]) := by
  obtain ⟨-, -, -, rfl⟩ := geomopt_ran_inv a c h
  exact ⟨rfl, rfl⟩

theorem geomopt_filter_configuration_witness :
    (geomoptCall ⟨"s.xyz", 1, 500, "mace_mp", "cpu", true, true, none, none, none, none,
        none, "geomopt.log"⟩).filter_kwargs = some [("hydrostatic_strain", PyVal.bool true)] ∧
    (geomoptCall ⟨"s.xyz", 1, 500, "mace_mp", "cpu", true, true, none, none, none, none,
        none, "geomopt.log"⟩).fully_opt_dict = [] :=
  geomopt_filter_configuration
    ⟨"s.xyz", 1, 500, "mace_mp", "cpu", true, true, none, none, none, none, none, "geomopt.log"⟩
    (geomoptCall ⟨"s.xyz", 1, 500, "mace_mp", "cpu", true, true, none, none, none, none,
        none, "geomopt.log"⟩) rfl

/-- C4: the normalizer either fails, with the error payload a non-mapping
value that is the wrapped value of a present input element, or returns
the same-length list in which each element is the wrapped mapping when
the input was present and the empty mapping when it was absent, every
element being a mapping. -/
theorem parse_typer_dicts_normalizes (l : List (Option TyperDict)) :
    match parse_typer_dicts l with
    | Except.error v => isDict v = false ∧ some (TyperDict.mk v) ∈ l
    | Except.ok out => out = l.map normSlot ∧ out.length = l.length ∧ out.all isDict = true := by
  cases hp : parse_typer_dicts l with
  | error v =>
      obtain ⟨h1, t, ht, hv⟩ := parse_typer_dicts_error l v hp
      cases t
      cases hv
      exact ⟨h1, ht⟩
  | ok out =>
      obtain ⟨rfl, h2⟩ := (parse_typer_dicts_ok_iff l out).mp hp
      refine ⟨rfl, by simp, ?_⟩
      rw [List.all_eq_true]
      intro v hv
      obtain ⟨td, htd, rfl⟩ := List.mem_map.mp hv
      exact h2 td htd

/-- C5: parsing the empty-mapping literal and normalizing the result
yields exactly what normalizing an absent input yields, namely the empty
mapping. -/
theorem parse_empty_mapping_roundtrip :
    parse_typer_dicts [some (parse_dict_class (PyVal.dict []))] = parse_typer_dicts [none] ∧
    parse_typer_dicts [none] = Except.ok [PyVal.dict []] :=
  ⟨rfl, rfl⟩

/-- C6, counterexample: supplying the empty string as the `--traj` value
is a supplied trajectory-path option, yet the run succeeds with the
`trajectory` entry set to the `None` sentinel (not to the supplied
value) and with no trajectory-write configuration. -/
theorem geomopt_empty_traj_cex :
    geomopt ⟨"s.xyz", 1, 1000, "mace_mp", "cpu", false, false, none, none, none, none,
        some "", "geomopt.log"⟩ =
      ⟨[Event.sessionBuild "s.xyz" "mace_mp" "cpu" [] [] "geomopt.log" "w"],
       GeomoptOutcome.ran ⟨"s.xyz", 1, 1000, none, [("filter_func", PyVal.none)],
         [("trajectory", PyVal.none)], true, [], none,
         [("filename", PyVal.str "geomopt.log"), ("filemode", PyVal.str "a")]⟩,
       none⟩ ∧
    PyVal.none ≠ PyVal.str "" :=
  ⟨rfl, fun h => nomatch h⟩

/-- C6, amended: on every successful `geomopt` run the trajectory wiring
is finalized exactly once — the optimizer-options `trajectory` entry is
set to the trajectory path when a non-empty path was supplied and to the
`None` sentinel when the option was absent or the empty string; the
trajectory-write configuration is the minimal `filename` mapping exactly
when a non-empty path was supplied and absent otherwise. -/
theorem geomopt_trajectory_wiring (a : GeomoptArgs) (c : OptimizeCall)
    (h : (geomopt a).outcome = GeomoptOutcome.ran c) :
    c.opt_kwargs =
      dictSet (pyDictEntries (normSlot a.opt_kwargs)) "trajectory" (trajPy a.traj_file) ∧
    (∀ s, a.traj_file = some s → s ≠ "" →
        c.opt_kwargs.lookup "trajectory" = some (PyVal.str s) ∧
        c.traj_kwargs = some [("filename", PyVal.str s)]) ∧
    ((a.traj_file = none ∨ a.traj_file = some "") →
        c.opt_kwargs.lookup "trajectory" = some PyVal.none ∧ c.traj_kwargs = none) := by
  obtain ⟨-, -, -, rfl⟩ := geomopt_ran_inv a c h
  refine ⟨rfl, ?_, ?_⟩
  · intro s hs hne
    have hpy : trajPy a.traj_file = PyVal.str s := by simp [trajPy, hs, hne]
    have hkw : trajKw a.traj_file = some [("filename", PyVal.str s)] := by
      simp [trajKw, hs, hne]
    constructor
    · simpa [geomoptCall, hpy] using
        dictSet_lookup_self (pyDictEntries (normSlot a.opt_kwargs)) "trajectory"
          (trajPy a.traj_file)
    · simp [geomoptCall, hkw]
  · intro hs
    have hpy : trajPy a.traj_file = PyVal.none := by
      rcases hs with hs | hs <;> simp [trajPy, hs]
    have hkw : trajKw a.traj_file = none := by
      rcases hs with hs | hs <;> simp [trajKw, hs]
    constructor
    · simpa [geomoptCall, hpy] using
        dictSet_lookup_self (pyDictEntries (normSlot a.opt_kwargs)) "trajectory"
          (trajPy a.traj_file)
    · simp [geomoptCall, hkw]

theorem geomopt_trajectory_wiring_witness :
    (geomoptCall ⟨"s.xyz", 1, 1000, "mace_mp", "cpu", false, false, none, none, none, none,
        some "t.xyz", "geomopt.log"⟩).opt_kwargs.lookup "trajectory"
      = some (PyVal.str "t.xyz") ∧
    (geomoptCall ⟨"s.xyz", 1, 1000, "mace_mp", "cpu", false, false, none, none, none, none,
        some "t.xyz", "geomopt.log"⟩).traj_kwargs = some [("filename", PyVal.str "t.xyz")] :=
  (geomopt_trajectory_wiring
    ⟨"s.xyz", 1, 1000, "mace_mp", "cpu", false, false, none, none, none, none,
        some "t.xyz", "geomopt.log"⟩
    (geomoptCall ⟨"s.xyz", 1, 1000, "mace_mp", "cpu", false, false, none, none, none, none,
        some "t.xyz", "geomopt.log"⟩) rfl).2.1 "t.xyz" rfl (by decide)

/-- C7: when all kwargs options normalize, the caller supplied an
optimizer-options mapping, and the invocation fails one of the two
validations (vectors-only without fully-opt, or a reserved `trajectory`
key), `geomopt` ends in an error with the caller-visible
optimizer-options mapping exactly as supplied — no `trajectory` entry
has been injected. -/
theorem geomopt_rejection_preserves_opt_kwargs (a : GeomoptArgs) (d : List (String × PyVal))
    (h1 : isDict (normSlot a.read_kwargs) = true) (h2 : isDict (normSlot a.calc_kwargs) = true)
    (h4 : isDict (normSlot a.write_kwargs) = true)
    (ho : a.opt_kwargs = some (TyperDict.mk (PyVal.dict d)))
    (hfail : (a.vectors_only = true ∧ a.fully_opt = false) ∨
      (d.lookup "trajectory").isSome = true) :
    (geomopt a).opt_kwargs_final = some d ∧ isErr (geomopt a).outcome = true := by
  have h3 : isDict (normSlot a.opt_kwargs) = true := by simp [ho, normSlot, isDict]
  have hp := parse4_ok _ _ _ _ h1 h2 h3 h4
  have hent : pyDictEntries (normSlot a.opt_kwargs) = d := by
    simp [ho, normSlot, pyDictEntries]
  have horig : origOpt a = some d := by simp [origOpt, ho]
  by_cases hv : (!a.fully_opt && a.vectors_only) = true
  · simp [geomopt, hp, hv, horig, isErr]
  · have hv' : (!a.fully_opt && a.vectors_only) = false := by simpa using hv
    have ht : (d.lookup "trajectory").isSome = true := by
      rcases hfail with ⟨hvo, hfo⟩ | ht
      · exact absurd (by simp [hvo, hfo] : (!a.fully_opt && a.vectors_only) = true) hv
      · exact ht
    simp [geomopt, hp, hv', hent, ht, horig, isErr]

theorem geomopt_rejection_preserves_opt_kwargs_witness :
    (geomopt ⟨"s.xyz", 1, 1000, "mace_mp", "cpu", false, true, none, none,
        some ⟨PyVal.dict [("maxstep", PyVal.int 1)]⟩, none, none, "geomopt.log"⟩).opt_kwargs_final
      = some [("maxstep", PyVal.int 1)] ∧
    isErr (geomopt ⟨"s.xyz", 1, 1000, "mace_mp", "cpu", false, true, none, none,
        some ⟨PyVal.dict [("maxstep", PyVal.int 1)]⟩, none, none,
        "geomopt.log"⟩).outcome = true :=
  geomopt_rejection_preserves_opt_kwargs _ _ rfl rfl rfl rfl (Or.inl ⟨rfl, rfl⟩)

/-- C8: every `geomopt` invocation that reaches the optimization phase
passes the same log destination twice — the session construction opens
it in write mode "w" and the `optimize` call receives it in append mode
"a" — while every `singlepoint` invocation that builds its session
passes its log destination once, in write mode (its `run` call carries
no log configuration at all). -/
theorem log_mode_sequencing :
    (∀ a c, (geomopt a).outcome = GeomoptOutcome.ran c →
        (geomopt a).events = [Event.sessionBuild a.struct_path a.architecture a.device
            (pyDictEntries (normSlot a.read_kwargs)) (pyDictEntries (normSlot a.calc_kwargs))
            a.log_file "w"] ∧
        c.log_kwargs = [("filename", PyVal.str a.log_file), ("filemode", PyVal.str "a")]) ∧
    (∀ a c, (singlepoint a).outcome = SinglepointOutcome.ran c →
        (singlepoint a).events = [Event.sessionBuild a.struct_path a.architecture a.device
            (pyDictEntries (normSlot a.read_kwargs)) (pyDictEntries (normSlot a.calc_kwargs))
            a.log_file "w"]) := by
  constructor
  · intro a c h
    obtain ⟨-, -, heq, rfl⟩ := geomopt_ran_inv a c h
    rw [heq]
    exact ⟨rfl, rfl⟩
  · intro a c h
    exact (singlepoint_ran_inv a c h).1

theorem log_mode_sequencing_witness :
    (geomopt ⟨"s.xyz", 1, 1000, "mace_mp", "cpu", false, false, none, none, none, none,
        none, "geomopt.log"⟩).events
      = [Event.sessionBuild "s.xyz" "mace_mp" "cpu" [] [] "geomopt.log" "w"] ∧
    (geomoptCall ⟨"s.xyz", 1, 1000, "mace_mp", "cpu", false, false, none, none, none, none,
        none, "geomopt.log"⟩).log_kwargs
      = [("filename", PyVal.str "geomopt.log"), ("filemode", PyVal.str "a")] ∧
    (singlepoint ⟨"w.xyz", "mace_mp", "cpu", none, none, none, none, "singlepoint.log"⟩).events
      = [Event.sessionBuild "w.xyz" "mace_mp" "cpu" [] [] "singlepoint.log" "w"] :=
  ⟨(log_mode_sequencing.1 ⟨"s.xyz", 1, 1000, "mace_mp", "cpu", false, false, none, none,
      none, none, none, "geomopt.log"⟩
      (geomoptCall ⟨"s.xyz", 1, 1000, "mace_mp", "cpu", false, false, none, none, none, none,
        none, "geomopt.log"⟩) rfl).1,
   (log_mode_sequencing.1 ⟨"s.xyz", 1, 1000, "mace_mp", "cpu", false, false, none, none,
      none, none, none, "geomopt.log"⟩
      (geomoptCall ⟨"s.xyz", 1, 1000, "mace_mp", "cpu", false, false, none, none, none, none,
        none, "geomopt.log"⟩) rfl).2,
   log_mode_sequencing.2 ⟨"w.xyz", "mace_mp", "cpu", none, none, none, none, "singlepoint.log"⟩
      ⟨none, true, []⟩ rfl⟩

/-- C9: the option parser performs no mapping-type check — for every
decoded literal it succeeds and returns the wrapper around exactly that
value; the non-mapping rejection happens only in the normalizer, which
errors on the wrapped value precisely when it is not a mapping. -/
theorem parse_dict_class_defers_type_check (v : PyVal) :
    (parse_dict_class v).value = v ∧
    parse_typer_dicts [some (parse_dict_class v)] =
      (if isDict v then Except.ok [v] else Except.error v) := by
  refine ⟨rfl, ?_⟩
  by_cases h : isDict v = true
  · simp [parse_typer_dicts, parse_dict_class, normSlot, h]
  · have h' : isDict v = false := by simpa using h
    simp [parse_typer_dicts, parse_dict_class, normSlot, h']

/-- C10: modelling the in-place mutation by explicit state passing — on
every successful call the final contents of the argument list (which the
source hands back unchanged in identity as its return value) have every
position assigned the normalized mapping: the wrapped value for a
present input, the empty mapping for an absent one; the functional view
returns exactly those contents. -/
theorem parse_typer_dicts_inplace_normalization (l : List (Option TyperDict))
    (h : (parse_typer_dicts_mut l).2 = Except.ok ()) :
    (parse_typer_dicts_mut l).1 = l.map (fun td => Slot.assigned (normSlot td)) ∧
    parse_typer_dicts l = Except.ok (l.map normSlot) := by
  induction l with
  | nil => exact ⟨rfl, rfl⟩
  | cons td rest ih =>
      by_cases hd : isDict (normSlot td) = true
      · have h' : (parse_typer_dicts_mut rest).2 = Except.ok () := by
          simpa [parse_typer_dicts_mut, hd] using h
        obtain ⟨ih1, ih2⟩ := ih h'
        constructor
        · simp [parse_typer_dicts_mut, hd, ih1]
        · simp [parse_typer_dicts, hd, ih2]
      · exfalso
        have hdf : isDict (normSlot td) = false := by simpa using hd
        have h' := h
        simp [parse_typer_dicts_mut, hdf] at h'

theorem parse_typer_dicts_inplace_normalization_witness :
    (parse_typer_dicts_mut [none, some (TyperDict.mk (PyVal.dict [("k", PyVal.int 1)]))]).1 =
      [Slot.assigned (PyVal.dict []), Slot.assigned (PyVal.dict [("k", PyVal.int 1)])] ∧
    parse_typer_dicts [none, some (TyperDict.mk (PyVal.dict [("k", PyVal.int 1)]))] =
      Except.ok [PyVal.dict [], PyVal.dict [("k", PyVal.int 1)]] :=
  parse_typer_dicts_inplace_normalization
    [none, some (TyperDict.mk (PyVal.dict [("k", PyVal.int 1)]))] rfl
